import Mathlib

/-!
Verification of the opportunity-finder backend core (task store, recency
reranker, batcher, batch orchestrator) against a shallow embedding of the
Python sources in `src/backend/`.

Conventions of the embedding:
* Python ints are `Int` (no overflow in CPython), list indices are `Nat`.
* Fallible Python code (code that may raise) is embedded with `Except String`;
  the carried `String` is the exception message.
* External I/O (the Gmail fetch, the three LLM calls) is represented by
  oracle values/functions supplied as parameters: each oracle gives the
  outcome (`Except String String`) the corresponding blocking call would
  have produced.  The orchestrator's control flow around those outcomes is
  translated from `workflow.py` line by line.
* Python dict/list reference semantics matter for `task_manager.get_task`
  (a shallow `dict.copy()`), so the store is modelled with an explicit heap:
  the `results` value of a task record is an address into a heap of lists,
  exactly as a CPython dict slot holds a reference to a list object.
-/

/-- One fetched Gmail message, as built by `email_service.fetch_emails`
(`message_obj`, email_service.py lines 213-222).  The Python dict key
`"from"` is named `sender` here because `from` is a Lean keyword. -/
structure Msg where
  message_id : String
  thread_id : String
  message_number : Nat
  total_in_thread : Nat
  subject : String
  sender : String
  date : String
  body : String
deriving DecidableEq

/-- The projection of a message stored in a success batch result
(`original_emails`, workflow.py lines 227-238): every field of the fetched
message except `message_id`. -/
structure OrigEmail where
  subject : String
  sender : String
  thread_id : String
  message_number : Nat
  total_in_thread : Nat
  body : String
  date : String
deriving DecidableEq

def origOf (m : Msg) : OrigEmail :=
  { subject := m.subject
    sender := m.sender
    thread_id := m.thread_id
    message_number := m.message_number
    total_in_thread := m.total_in_thread
    body := m.body
    date := m.date }

/-- A per-batch result record appended to a task.  `workflow.py` builds two
dict shapes: the success shape (lines 220-240) and the error shape
(lines 255-262); they share the four counting fields.  The
`processed_at` timestamp is omitted (wall-clock time, irrelevant to every
claim). -/
inductive BatchResult where
  | success (batch_number total_batches messages_in_batch thread_count_in_batch : Nat)
      (analysis raw_markdown : String) (original_emails : List OrigEmail)
  | failure (batch_number total_batches messages_in_batch thread_count_in_batch : Nat)
      (error : String)
deriving DecidableEq

/-- A task record as stored in `task_manager._tasks` (task_manager.py lines
32-43).  `resultsRef` is the heap address of the `results` list object;
`created_at` / `updated_at` wall-clock timestamps are omitted (no claim
mentions them). -/
structure PyTask where
  task_id : String
  sender_id : String
  email_limit : Int
  batch_size : Int
  status : String
  progress : String
  resultsRef : Nat
  error : Option String
deriving DecidableEq

/-- The task-manager state: the `_tasks` dict (insertion-ordered association
list) plus the heap of list objects referenced by the records. -/
structure Store where
  tasks : List (String × PyTask)
  heap : List (List BatchResult)
deriving DecidableEq

def emptyStore : Store := { tasks := [], heap := [] }

def lookupTask (s : Store) (tid : String) : Option PyTask :=
  (s.tasks.find? (fun p => p.1 == tid)).map (·.2)

/-- `task_manager.create_task` (lines 18-48) with the fresh uuid supplied by
the caller: installs a `processing` record with progress `"0/0"`, no error,
and a fresh empty results list object on the heap. -/
def create_task (s : Store) (tid sender_id : String) (email_limit batch_size : Int) : Store :=
  { tasks := s.tasks ++ [(tid,
      { task_id := tid
        sender_id := sender_id
        email_limit := email_limit
        batch_size := batch_size
        status := "processing"
        progress := "0/0"
        resultsRef := s.heap.length
        error := none })]
    heap := s.heap ++ [[]] }

/-- The keyword arguments accepted by `task_manager.update_task` on the code
paths exercised by the workflow: `none` means "field not passed". -/
structure TaskUpdates where
  status : Option String
  progress : Option String
  error : Option String
deriving DecidableEq

def applyUpdates (t : PyTask) (u : TaskUpdates) : PyTask :=
  { t with
    status := u.status.getD t.status
    progress := u.progress.getD t.progress
    error := match u.error with
      | some e => some e
      | none => t.error }

/-- `task_manager.update_task` (lines 71-95): merges the given fields into
the record; unknown task id returns `false` and leaves the store unchanged.
(The `updated_at` refresh is omitted with the timestamps.) -/
def update_task (s : Store) (tid : String) (u : TaskUpdates) : Bool × Store :=
  match lookupTask s tid with
  | none => (false, s)
  | some _ =>
    (true, { s with tasks := s.tasks.map (fun p =>
        if p.1 == tid then (p.1, applyUpdates p.2 u) else p) })

/-- `task_manager.add_result` (lines 98-118): appends to the task's results
list object on the heap; unknown task id returns `false`. -/
def add_result (s : Store) (tid : String) (r : BatchResult) : Bool × Store :=
  match lookupTask s tid with
  | none => (false, s)
  | some t =>
    (true, { s with heap := s.heap.set t.resultsRef ((s.heap.getD t.resultsRef []) ++ [r]) })

/-- `task_manager.get_task` (lines 51-68): `task.copy()` is a *shallow* dict
copy, so the returned record holds the same `results` list reference as the
store-internal record — rendered here by returning the `PyTask` value with
its `resultsRef` unchanged. -/
def get_task (s : Store) (tid : String) : Option PyTask :=
  lookupTask s tid

/-- Python `returned_record["results"].append(r)` performed by a *caller* on
a record obtained from `get_task`: mutates the shared list object on the
heap. -/
def appendViaRecord (s : Store) (t : PyTask) (r : BatchResult) : Store :=
  { s with heap := s.heap.set t.resultsRef ((s.heap.getD t.resultsRef []) ++ [r]) }

/-- The results list of the store-internal record for `tid`, read through the
heap. -/
def taskResults (s : Store) (tid : String) : Option (List BatchResult) :=
  (lookupTask s tid).map (fun t => s.heap.getD t.resultsRef [])

def statusOf (s : Store) (tid : String) : Option String :=
  (lookupTask s tid).map (·.status)

def progressOf (s : Store) (tid : String) : Option String :=
  (lookupTask s tid).map (·.progress)

def errorOf (s : Store) (tid : String) : Option (Option String) :=
  (lookupTask s tid).map (·.error)

/-! ## prompts.py -/

/-- One entry of the prompts YAML, as returned by `prompts.get_prompt`
(prompts.py lines 80-83). -/
structure PromptData where
  system_prompt : String
  user_prompt : String
deriving DecidableEq

/-- `prompts.get_prompt` (lines 56-83) over an already-loaded prompt store:
missing key raises `KeyError` (embedded as `.error`) whose message lists the
available keys.  (Python renders the key between single quotes, written
`\x27` here.) -/
def get_prompt (store : List (String × PromptData)) (prompt_key : String) :
    Except String PromptData :=
  match store.find? (fun p => p.1 == prompt_key) with
  | none => .error ("Prompt key \x27" ++ prompt_key ++ "\x27 not found. Available: "
      ++ String.intercalate ", " (store.map (·.1)))
  | some p => .ok p.2

/-- `prompts.format_user_prompt` (lines 86-105): looks the key up again and
substitutes the email content for the `\x7bemail_content\x7d` placeholder.
Raises (propagates `KeyError`) when the key is missing. -/
def format_user_prompt (store : List (String × PromptData)) (prompt_key : String)
    (email_content : String) : Except String String :=
  (get_prompt store prompt_key).map
    (fun pd => pd.user_prompt.replace "\x7bemail_content\x7d" email_content)

/-! ## llm_service.py -/

/-- Index (0-based) of the first occurrence of `pat` in `s`, if any. -/
def firstIdxFrom (pat : List Char) : List Char → Option Nat
  | [] => if pat.isEmpty then some 0 else none
  | c :: cs =>
    if pat.isPrefixOf (c :: cs) then some 0
    else (firstIdxFrom pat cs).map (· + 1)

def dropPrefixIf (pat : List Char) (s : List Char) : List Char :=
  if pat.isPrefixOf s then s.drop pat.length else s

/-- The `first { ... last }` fallback of `llm_service._extract_json_from_text`
(lines 268-277): the slice from the first `\x7b` to the last `\x7d` when both
exist in that order, else the stripped text. -/
def braceFallback (text : String) : String :=
  let cs := text.toList
  match cs.findIdx? (· = '\x7b'), (cs.reverse.findIdx? (· = '\x7d')).map
      (fun j => cs.length - 1 - j) with
  | some i, some j =>
    if i < j then String.mk ((cs.drop i).take (j - i + 1)) else text.trim
  | _, _ => text.trim

/-- `llm_service._extract_json_from_text` (lines 250-277).  The regex
search for a fenced block (pattern three backticks, optional `json` tag,
lazy body, three backticks, with `re.DOTALL`) matches exactly when a second
fence follows the first; the captured body is everything between the fences
minus an optional `json` tag, and it is `.strip()`ed afterwards, which
subsumes the `\s*`/`\n?` trimming in the pattern.  Without a fence pair the
brace fallback applies to the original text. -/
def _extract_json_from_text (text : String) : String :=
  let fence : List Char := ['`', '`', '`']
  let cs := text.toList
  match firstIdxFrom fence cs with
  | some i =>
    let afterTag := dropPrefixIf ['j', 's', 'o', 'n'] (cs.drop (i + 3))
    match firstIdxFrom fence afterTag with
    | some j => (String.mk (afterTag.take j)).trim
    | none => braceFallback text
  | none => braceFallback text

/-- `llm_service.parse_markdown_to_json` (lines 136-247).
`groq_api_key` is the `GROQ_API_KEY` environment value; `backend` is the
outcome of the GROQ call (lines 186-219, after the internal JSON-mode /
regular-mode fallback — any raise there lands in the outer `except`);
`isValidJson` models `json.loads` succeeding.  Every path returns a string:
no input makes the function itself raise. -/
def parse_markdown_to_json (isValidJson : String → Bool) (groq_api_key : Option String)
    (backend : Except String String) (markdown_text : String) : String :=
  match groq_api_key with
  | none => markdown_text
  | some _ =>
    match backend with
    | .error _ => markdown_text
    | .ok content =>
      let result := _extract_json_from_text content
      if isValidJson result then result else markdown_text

/-! ## email_service.py -/

/-- `email_service.strip_metadata_with_llm` (lines 446-504): `llm` is the
outcome of the inner `analyze_with_llm` call; any raise there is caught and
the original text returned, so the function itself never raises. -/
def strip_metadata_with_llm (llm : Except String String) (email_text : String) : String :=
  match llm with
  | .ok cleaned => cleaned
  | .error _ => email_text

/-- The stage-1 outcome the batch loop actually observes: the
`strip_metadata_with_llm(...)` call completes normally on every input
(`Except.ok`), its internal LLM failure (`stage1LLM` erring) degraded to the
original text.  A run of the real program always has
`strip_call = realStripCall stage1LLM` for some inner-LLM behaviour
`stage1LLM`; a stage-1 LLM failure therefore never reaches the loop's
`except` handler. -/
def realStripCall (stage1LLM : Nat → Except String String) :
    Nat → String → Except String String :=
  fun batch_num email_text => .ok (strip_metadata_with_llm (stage1LLM batch_num) email_text)

/-- The lines `combine_emails` emits for the `i`-th (1-based) message
(email_service.py lines 520-536).  Every embedded `Msg` carries a
`thread_id`, so the thread-context line is always present, and none carries
the legacy `message_count` key, so that line never is. -/
def combineLines (i : Nat) (e : Msg) : List String :=
  ["=== MESSAGE " ++ toString i ++ " ===",
   "Subject: " ++ e.subject,
   "From: " ++ e.sender,
   "Date: " ++ e.date,
   "Thread Context: Message " ++ toString e.message_number ++ " of "
     ++ toString e.total_in_thread,
   "\n" ++ e.body ++ "\n"]

/-- `email_service.combine_emails` (lines 507-542). -/
def combine_emails (emails : List Msg) : String :=
  String.intercalate "\n"
    ((List.enumFrom 1 emails).flatMap (fun p => combineLines p.1 p.2))

/-- The `thread_groups` dict built in `fetch_emails` (lines 246-251): a
Python dict is insertion-ordered, so grouping by `thread_id` keeps the
conversations in first-appearance order and each group in arrival order. -/
def groupByThread (msgs : List Msg) : List (String × List Msg) :=
  msgs.foldl (fun groups m =>
    if groups.any (fun p => p.1 == m.thread_id) then
      groups.map (fun p => if p.1 == m.thread_id then (p.1, p.2 ++ [m]) else p)
    else groups ++ [(m.thread_id, [m])]) []

/-- Loop body of `_latest_date` (email_service.py lines 256-262): one step of
the `latest` accumulator over a message.  `parse` models
`email.utils.parsedate_to_datetime`; a `none` outcome is the per-item
`except ... continue` (which also swallows the naive/aware comparison
`TypeError`, so in the embedding comparison is total and nothing raises). -/
def latestFold (parse : String → Option Nat) (latest : Option Nat) (m : Msg) :
    Option Nat :=
  match parse m.date with
  | none => latest
  | some parsed =>
    match latest with
    | none => some parsed
    | some l => if parsed > l then some parsed else some l

/-- `_latest_date` (fetch_emails inner function, lines 253-265): instants are
`Nat` with `0` standing for the timezone-aware `datetime.min` fallback
(`latest or dt.min.replace(tzinfo=timezone.utc)`; a real parse outcome is
never falsy, so `or` only replaces `None`). -/
def _latest_date (parse : String → Option Nat) (messages : List Msg) : Nat :=
  (messages.foldl (latestFold parse) none).getD 0

/-- Modelled from the spec: stand-in for the stdlib RFC 2822 date parser
(`email.utils.parsedate_to_datetime`), which is outside this repository.
Digit strings parse, everything else fails; successful instants are shifted
by one because the real parser cannot produce `datetime.min` (its earliest
representable output, year 100, lies strictly above the minimum). -/
def parsedate (s : String) : Option Nat :=
  s.toNat?.map (· + 1)

/-- Stable insertion: `x` is placed immediately before the first element `y`
with `le x y`. -/
def pyInsert (le : α → α → Bool) (x : α) : List α → List α
  | [] => [x]
  | y :: ys => if le x y then x :: y :: ys else y :: pyInsert le x ys

/-- Stable insertion sort: Python's `sorted` is a stable sort, and insertion
sort built with `pyInsert` (elements inserted right to left) is its
extensional equal for the comparison disciplines used below. -/
def pySorted (le : α → α → Bool) (l : List α) : List α :=
  l.foldr (pyInsert le) []

/-- Python `sorted(l, key=key, reverse=True)`: stable descending — an element
stays before another iff its key is greater *or equal* (ties keep source
order). -/
def sortedDescBy (key : α → Nat) (l : List α) : List α :=
  pySorted (fun x y => decide (key y ≤ key x)) l

/-- Python `sorted(l, key=key)`: stable ascending. -/
def sortedAscBy (key : α → Nat) (l : List α) : List α :=
  pySorted (fun x y => decide (key x ≤ key y)) l

/-- The pure reranking tail of `email_service.fetch_emails` (lines 246-276):
group the fetched messages by thread, sort the threads by latest parsed
message date (stable, descending), keep the first `max_results`, and flatten
each kept thread after a stable sort of its messages by `message_number`. -/
def fetch_rerank (parse : String → Option Nat) (max_results : Nat)
    (all_messages : List Msg) : List Msg :=
  let thread_groups := groupByThread all_messages
  let sorted_threads := sortedDescBy (fun p => _latest_date parse p.2) thread_groups
  let top_threads := sorted_threads.take max_results
  (top_threads.map (fun p => sortedAscBy (fun m => m.message_number) p.2)).flatten

/-! ## workflow.py -/

/-- Python `range(0, len(items), batch_size)` slicing loop for a positive
step, chunk size `k + 1`, with explicit fuel (the list length bounds the
iteration count, exactly as `range` does); structural recursion on the fuel
keeps the definition kernel-reducible. -/
def chunksFuel (k : Nat) : Nat → List α → List (List α)
  | _, [] => []
  | 0, l => [l]
  | n + 1, x :: xs => (x :: xs.take k) :: chunksFuel k n (xs.drop k)

/-- Python `range(0, len(items), batch_size)` slicing loop body for a
positive step: chunk size is `k + 1`. -/
def chunksPos (k : Nat) (l : List α) : List (List α) :=
  chunksFuel k l.length l

/-- `workflow._create_batches` (lines 294-310) with CPython `range`
semantics: a zero step raises `ValueError`; a negative step makes
`range(0, len(items), step)` empty, so the loop body never runs and the
function silently returns no batches; a positive step yields the contiguous
slices. -/
def _create_batches (items : List α) (batch_size : Int) : Except String (List (List α)) :=
  if batch_size = 0 then .error "range() arg 3 must not be zero"
  else if batch_size < 0 then .ok []
  else .ok (chunksPos (batch_size.toNat - 1) items)

/-- The external outcomes one workflow run observes, indexed by 1-based batch
number where per-batch: `fetchResult` is what `email_service.fetch_emails`
returns or raises; `strip_call` the outcome of the
`email_service.strip_metadata_with_llm` *call frame* (LLM call 1) as seen by
the loop — in the real program this is `realStripCall stage1LLM`, which
always returns `.ok` because the function catches its LLM failure and
degrades to the original text, so the `.error` case only covers the loop's
defensive handling of the call itself raising; `analyze_call`
the outcome of `llm_service.analyze_with_llm` (LLM call 2); `parse_backend`
the outcome of the GROQ call inside `parse_markdown_to_json` (LLM call 3);
`groq_api_key` and `isValidJson` as in `parse_markdown_to_json`. -/
structure Env where
  fetchResult : Except String (List Msg)
  promptStore : List (String × PromptData)
  groq_api_key : Option String
  isValidJson : String → Bool
  strip_call : Nat → String → Except String String
  analyze_call : Nat → String → Except String String
  parse_backend : Nat → Except String String

/-- Observable calls a workflow run makes, in order. -/
inductive Ev where
  | fetchEmails
  | promptLookup (key : String)
  | stage1 (batch_num : Nat)
  | stage2 (batch_num : Nat)
  | stage3 (batch_num : Nat)
deriving DecidableEq

/-- `len(set(msg.get("thread_id", "") for msg in batch))` (workflow.py lines
218 and 254). -/
def threadCount (batch : List Msg) : Nat :=
  ((batch.map (·.thread_id)).eraseDups).length

/-- The error-shaped batch record (workflow.py lines 255-262). -/
def errorResult (batch_num total : Nat) (batch : List Msg) (e : String) : BatchResult :=
  .failure batch_num total batch.length (threadCount batch) e

/-- The success-shaped batch record (workflow.py lines 220-240). -/
def successResult (batch_num total : Nat) (batch : List Msg)
    (llm_response parsed : String) : BatchResult :=
  .success batch_num total batch.length (threadCount batch) parsed llm_response
    (batch.map origOf)

def progressStr (i total : Nat) : String :=
  toString i ++ "/" ++ toString total

/-- One iteration of the batch loop (workflow.py lines 114-266): the `try`
block runs combine → stage 1 → prompt formatting → stage 2 → stage 3 →
`add_result` → progress update; any raise lands in the `except` block, which
appends the error-shaped record and — notably — does *not* touch progress.
The `.error` case of `strip_call` is that `except` handler catching a raise
of the stage-1 call itself; `strip_metadata_with_llm` as written never
raises (a real run has `strip_call = realStripCall stage1LLM`, always
`.ok`), so on every reachable path stage 1 falls through to stage 2.
Stage 3 (`parse_markdown_to_json`) is total, so it can only degrade, never
raise.  Returns the store after the iteration and the stage calls made. -/
def processBatch (env : Env) (prompt_key tid : String) (total batch_num : Nat)
    (batch : List Msg) (s : Store) : Store × List Ev :=
  let combined := combine_emails batch
  match env.strip_call batch_num combined with
  | .error e =>
    ((add_result s tid (errorResult batch_num total batch e)).2, [.stage1 batch_num])
  | .ok cleaned =>
    match format_user_prompt env.promptStore prompt_key cleaned with
    | .error e =>
      ((add_result s tid (errorResult batch_num total batch e)).2, [.stage1 batch_num])
    | .ok user_prompt =>
      match env.analyze_call batch_num user_prompt with
      | .error e =>
        ((add_result s tid (errorResult batch_num total batch e)).2,
         [.stage1 batch_num, .stage2 batch_num])
      | .ok llm_response =>
        let parsed := parse_markdown_to_json env.isValidJson env.groq_api_key
          (env.parse_backend batch_num) llm_response
        let s1 := (add_result s tid (successResult batch_num total batch llm_response parsed)).2
        let s2 := (update_task s1 tid ⟨none, some (progressStr batch_num total), none⟩).2
        (s2, [.stage1 batch_num, .stage2 batch_num, .stage3 batch_num])

/-- The batch loop (workflow.py line 114, `enumerate(batches, 1)`). -/
def processBatches (env : Env) (prompt_key tid : String) (total : Nat) :
    Nat → List (List Msg) → Store → Store × List Ev
  | _, [], s => (s, [])
  | i, b :: bs, s =>
    let r1 := processBatch env prompt_key tid total i b s
    let r2 := processBatches env prompt_key tid total (i + 1) bs r1.1
    (r2.1, r1.2 ++ r2.2)

/-- The store states observed after each iteration of the batch loop: the
`k`-th entry is the state in which batch `k + 2` begins (the loop reads and
continues from exactly these states; `processBatches` on `b :: bs` recurses
on the first component of `processBatch ... b s` by definition). -/
def batchStates (env : Env) (prompt_key tid : String) (total : Nat) :
    Nat → List (List Msg) → Store → List Store
  | _, [], _ => []
  | i, b :: bs, s =>
    let s1 := (processBatch env prompt_key tid total i b s).1
    s1 :: batchStates env prompt_key tid total (i + 1) bs s1

/-- `workflow.run_analysis_workflow` (lines 20-291).  The debug-file writes
are omitted (pure logging side channel).  Control flow: fetch; empty fetch →
`completed` with note; batching (a `ValueError` from `range` propagates to
the outer `except`); prompt lookup (a `KeyError` likewise); then the batch
loop; finally status `completed` with progress `"total/total"`.  Any raise
before or between those steps lands in the outer `except`, which marks the
task `failed` with the message.  Returns the final store and the ordered
observable calls. -/
def run_analysis_workflow (env : Env) (tid prompt_key : String) (batch_size : Int)
    (s0 : Store) : Store × List Ev :=
  match env.fetchResult with
  | .error e =>
    ((update_task s0 tid ⟨some "failed", none, some e⟩).2, [.fetchEmails])
  | .ok emails =>
    if emails.isEmpty then
      ((update_task s0 tid
          ⟨some "completed", some "0/0", some "No messages found from this sender"⟩).2,
       [.fetchEmails])
    else
      match _create_batches emails batch_size with
      | .error e =>
        ((update_task s0 tid ⟨some "failed", none, some e⟩).2, [.fetchEmails])
      | .ok batches =>
        let total := batches.length
        match get_prompt env.promptStore prompt_key with
        | .error e =>
          ((update_task s0 tid ⟨some "failed", none, some e⟩).2,
           [.fetchEmails, .promptLookup prompt_key])
        | .ok _ =>
          let r := processBatches env prompt_key tid total 1 batches s0
          ((update_task r.1 tid ⟨some "completed", some (progressStr total total), none⟩).2,
           [.fetchEmails, .promptLookup prompt_key] ++ r.2)

/-- The first raise the batch loop's `try` block observes, if any (mirrors
`processBatch`): `none` means the batch succeeds.  With the real stage 1
(`realStripCall`, which always returns `.ok`) only the prompt formatting and
the stage 2 call can contribute an error here. -/
def stageError (env : Env) (prompt_key : String) (batch_num : Nat)
    (batch : List Msg) : Option String :=
  match env.strip_call batch_num (combine_emails batch) with
  | .error e => some e
  | .ok cleaned =>
    match format_user_prompt env.promptStore prompt_key cleaned with
    | .error e => some e
    | .ok user_prompt =>
      match env.analyze_call batch_num user_prompt with
      | .error e => some e
      | .ok _ => none

/-- The batch record one loop iteration appends, as a pure function of the
oracles.  With the real stage 1 (`realStripCall`) the first branch is
unreachable: a stage-1 LLM failure yields `.ok` of the original text and the
record is the success shape built from it. -/
def batchOutcome (env : Env) (prompt_key : String) (total batch_num : Nat)
    (batch : List Msg) : BatchResult :=
  match env.strip_call batch_num (combine_emails batch) with
  | .error e => errorResult batch_num total batch e
  | .ok cleaned =>
    match format_user_prompt env.promptStore prompt_key cleaned with
    | .error e => errorResult batch_num total batch e
    | .ok user_prompt =>
      match env.analyze_call batch_num user_prompt with
      | .error e => errorResult batch_num total batch e
      | .ok llm_response =>
        successResult batch_num total batch llm_response
          (parse_markdown_to_json env.isValidJson env.groq_api_key
            (env.parse_backend batch_num) llm_response)

/-! ## Spec-side rendering of the reranker (for claim C2) -/

/-- Strict order of the spec's conversation ranking: key descending, ties
broken by position in the source sequence (first-appearance order). -/
def lexDescCond (key : α → Nat) (p q : Nat × α) : Bool :=
  decide (key q.2 < key p.2) || (decide (key p.2 = key q.2) && decide (p.1 < q.1))

/-- Strict order of the spec's intra-conversation ordering: key ascending,
ties broken by arrival position. -/
def lexAscCond (key : α → Nat) (p q : Nat × α) : Bool :=
  decide (key p.2 < key q.2) || (decide (key p.2 = key q.2) && decide (p.1 < q.1))

/-- Sort by a strict total order (key descending, index ascending on ties):
the spec's "descending; ties broken by source-provided order". -/
def specSortedDescBy (key : α → Nat) (l : List α) : List α :=
  (pySorted (lexDescCond key) l.enum).map (·.2)

/-- Sort by key ascending with arrival order on ties. -/
def specSortedAscBy (key : α → Nat) (l : List α) : List α :=
  (pySorted (lexAscCond key) l.enum).map (·.2)

/-- The reranker as the spec words it: group items by conversation id
(first-appearance order); order conversations by most-recent parseable date,
descending, ties broken by source order; truncate to the requested count;
flatten, items within each conversation by intra-conversation position
ascending. -/
def rerank_spec (parse : String → Option Nat) (max_results : Nat)
    (msgs : List Msg) : List Msg :=
  let convs := groupByThread msgs
  let ranked := specSortedDescBy (fun p => _latest_date parse p.2) convs
  ((ranked.take max_results).map
    (fun p => specSortedAscBy (fun m => m.message_number) p.2)).flatten

/-- The instants of the messages whose date strings parse, in order. -/
def parsedDates (parse : String → Option Nat) (messages : List Msg) : List Nat :=
  messages.filterMap (fun m => parse m.date)

/-- The stage calls one loop iteration makes, as a pure function of the
oracles: stage 1 always runs; stage 2 only when the stage-1 call returned
(which, with the real `realStripCall` stage 1, is always — an internal
stage-1 LLM failure does not stop the batch) and the prompt formatting
succeeded; stage 3 only when stage 2 succeeded. -/
def batchEvents (env : Env) (prompt_key : String) (batch_num : Nat)
    (batch : List Msg) : List Ev :=
  match env.strip_call batch_num (combine_emails batch) with
  | .error _ => [.stage1 batch_num]
  | .ok cleaned =>
    match format_user_prompt env.promptStore prompt_key cleaned with
    | .error _ => [.stage1 batch_num]
    | .ok user_prompt =>
      match env.analyze_call batch_num user_prompt with
      | .error _ => [.stage1 batch_num, .stage2 batch_num]
      | .ok _ => [.stage1 batch_num, .stage2 batch_num, .stage3 batch_num]

/-! ## Concrete fixtures used by witnesses and counterexamples -/

def msgA1 : Msg := ⟨"idA1", "threadA", 1, 2, "SubjA", "a@x.com", "3", "first"⟩

def msgA2 : Msg := ⟨"idA2", "threadA", 2, 2, "SubjA", "b@y.com", "5", "reply"⟩

def msgB1 : Msg := ⟨"idB1", "threadB", 1, 1, "SubjB", "a@x.com", "4", "solo"⟩

/-- A message whose date string does not parse. -/
def msgC1 : Msg := ⟨"idC1", "threadC", 1, 1, "SubjC", "a@x.com", "garbled", "noise"⟩

def pstore : List (String × PromptData) :=
  [("k", ⟨"sys", "analyze: \x7bemail_content\x7d"⟩)]

/-- A store holding one freshly created task `"t"`. -/
def store0 : Store := create_task emptyStore "t" "f5bot" 2 1

def c7res : BatchResult := .failure 1 1 1 1 "late append"

/-- Oracles where stage 1 raises on batch 1 and everything else succeeds. -/
def envC1 : Env :=
  { fetchResult := .ok [msgA1, msgB1]
    promptStore := pstore
    groq_api_key := none
    isValidJson := fun _ => true
    strip_call := fun i _ => if i = 1 then .error "stage1 boom" else .ok "cleaned"
    analyze_call := fun _ _ => .ok "md output"
    parse_backend := fun _ => .ok "unused" }

/-- Oracles where stage 2 raises on batch 1 and everything else succeeds. -/
def envC4 : Env :=
  { fetchResult := .ok [msgA1, msgB1]
    promptStore := pstore
    groq_api_key := none
    isValidJson := fun _ => true
    strip_call := fun _ _ => .ok "cleaned"
    analyze_call := fun i _ => if i = 1 then .error "stage2 boom" else .ok "md output"
    parse_backend := fun _ => .ok "unused" }

/-- Oracles whose prompt store lacks the key the workflow is started with. -/
def envC5 : Env :=
  { fetchResult := .ok [msgA1]
    promptStore := [("other", ⟨"s", "u"⟩)]
    groq_api_key := none
    isValidJson := fun _ => true
    strip_call := fun _ _ => .ok "cleaned"
    analyze_call := fun _ _ => .ok "md output"
    parse_backend := fun _ => .ok "unused" }

/-- An inner stage-1 LLM that fails on every batch. -/
def stage1Down : Nat → Except String String := fun _ => .error "llm down"

/-- An inner stage-1 LLM that always answers `"cleaned"`. -/
def stage1OK : Nat → Except String String := fun _ => .ok "cleaned"

/-- Oracles with the real stage 1 over a failing inner LLM: the observed
stage-1 outcome is `.ok` of the uncleaned text, everything downstream
succeeds. -/
def envC6fix : Env :=
  { fetchResult := .ok [msgA1]
    promptStore := pstore
    groq_api_key := none
    isValidJson := fun _ => true
    strip_call := realStripCall stage1Down
    analyze_call := fun _ _ => .ok "md output"
    parse_backend := fun _ => .ok "unused" }

/-- Oracles with the real stage 1 over a healthy inner LLM; stage 2 raises
on batch 2, and the stage-3 backend raises on every batch. -/
def envC6b : Env :=
  { fetchResult := .ok [msgA1, msgA2, msgB1]
    promptStore := pstore
    groq_api_key := some "gk"
    isValidJson := fun _ => true
    strip_call := realStripCall stage1OK
    analyze_call := fun i _ => if i = 2 then .error "s2 err" else .ok "md output"
    parse_backend := fun _ => .error "s3 err" }

/-! ## Stable sort vs index-lexicographic sort -/

theorem mem_pyInsert {le : α → α → Bool} {x a : α} {l : List α}
    (h : a ∈ pyInsert le x l) : a = x ∨ a ∈ l := by
  induction l with
  | nil => simpa [pyInsert] using h
  | cons y ys ih =>
    simp only [pyInsert] at h
    by_cases hc : le x y
    · rw [if_pos hc] at h
      rcases List.mem_cons.mp h with h | h
      · exact Or.inl h
      · exact Or.inr h
    · rw [if_neg hc] at h
      rcases List.mem_cons.mp h with h | h
      · exact Or.inr (h ▸ List.mem_cons_self y ys)
      · rcases ih h with h | h
        · exact Or.inl h
        · exact Or.inr (List.mem_cons_of_mem y h)

theorem mem_pySorted {le : α → α → Bool} {a : α} {l : List α}
    (h : a ∈ pySorted le l) : a ∈ l := by
  induction l with
  | nil => simp [pySorted] at h
  | cons x xs ih =>
    simp only [pySorted, List.foldr_cons] at h
    rcases mem_pyInsert h with rfl | h
    · exact List.mem_cons_self _ _
    · exact List.mem_cons_of_mem x (ih h)

theorem map_snd_pyInsert (cond : α → α → Bool) (lex : Nat × α → Nat × α → Bool)
    (hcompat : ∀ p q : Nat × α, p.1 < q.1 → lex p q = cond p.2 q.2)
    (p : Nat × α) (l : List (Nat × α)) (hl : ∀ q ∈ l, p.1 < q.1) :
    (pyInsert lex p l).map (·.2) = pyInsert cond p.2 (l.map (·.2)) := by
  induction l with
  | nil => simp [pyInsert]
  | cons q qs ih =>
    have hpq : lex p q = cond p.2 q.2 := hcompat p q (hl q (List.mem_cons_self q qs))
    simp only [pyInsert, hpq, List.map_cons]
    by_cases h : cond p.2 q.2
    · simp [h]
    · simp only [h, if_false, Bool.false_eq_true, List.map_cons, List.cons.injEq, true_and]
      exact ih (fun r hr => hl r (List.mem_cons_of_mem q hr))

theorem map_snd_pySorted_enumFrom (cond : α → α → Bool)
    (lex : Nat × α → Nat × α → Bool)
    (hcompat : ∀ p q : Nat × α, p.1 < q.1 → lex p q = cond p.2 q.2) :
    ∀ (l : List α) (i : Nat),
      (pySorted lex (List.enumFrom i l)).map (·.2) = pySorted cond l := by
  intro l
  induction l with
  | nil => intro i; rfl
  | cons x xs ih =>
    intro i
    have hmem : ∀ q ∈ pySorted lex (List.enumFrom (i + 1) xs), (i, x).1 < q.1 := by
      intro q hq
      have h1 : q ∈ List.enumFrom (i + 1) xs := mem_pySorted hq
      obtain ⟨a, b⟩ := q
      have := (List.mem_enumFrom h1).1
      simpa using Nat.lt_of_lt_of_le (Nat.lt_succ_self i) this
    rw [List.enumFrom_cons]
    show (pyInsert lex (i, x) (pySorted lex (List.enumFrom (i + 1) xs))).map (·.2)
      = pyInsert cond x (pySorted cond xs)
    rw [map_snd_pyInsert cond lex hcompat (i, x) _ hmem, ih (i + 1)]

theorem decide_desc_tie (a b : Nat) :
    (decide (b < a) || (decide (a = b) && true)) = decide (b ≤ a) := by
  apply Bool.eq_iff_iff.mpr
  simp only [Bool.or_eq_true, Bool.and_eq_true, decide_eq_true_eq, and_true]
  omega

theorem decide_asc_tie (a b : Nat) :
    (decide (a < b) || (decide (a = b) && true)) = decide (a ≤ b) := by
  apply Bool.eq_iff_iff.mpr
  simp only [Bool.or_eq_true, Bool.and_eq_true, decide_eq_true_eq, and_true]
  omega

theorem sortedDescBy_eq_spec (key : α → Nat) (l : List α) :
    specSortedDescBy key l = sortedDescBy key l := by
  have hcompat : ∀ p q : Nat × α, p.1 < q.1 →
      lexDescCond key p q = decide (key q.2 ≤ key p.2) := by
    intro p q h
    unfold lexDescCond
    rw [decide_eq_true h, decide_desc_tie]
  unfold specSortedDescBy sortedDescBy
  exact map_snd_pySorted_enumFrom _ _ hcompat l 0

theorem sortedAscBy_eq_spec (key : α → Nat) (l : List α) :
    specSortedAscBy key l = sortedAscBy key l := by
  have hcompat : ∀ p q : Nat × α, p.1 < q.1 →
      lexAscCond key p q = decide (key p.2 ≤ key q.2) := by
    intro p q h
    unfold lexAscCond
    rw [decide_eq_true h, decide_asc_tie]
  unfold specSortedAscBy sortedAscBy
  exact map_snd_pySorted_enumFrom _ _ hcompat l 0

/-! ## Facts about `_latest_date` -/

theorem latestFold_skip {parse : String → Option Nat} {m : Msg}
    (h : parse m.date = none) (acc : Option Nat) : latestFold parse acc m = acc := by
  unfold latestFold
  rw [h]

theorem latestFold_none {parse : String → Option Nat} {m : Msg} {d : Nat}
    (h : parse m.date = some d) : latestFold parse none m = some d := by
  unfold latestFold
  rw [h]

theorem latestFold_some {parse : String → Option Nat} {m : Msg} {d : Nat}
    (h : parse m.date = some d) (a : Nat) :
    latestFold parse (some a) m = some (max a d) := by
  unfold latestFold
  rw [h]
  show (if d > a then some d else some a) = some (max a d)
  by_cases hda : d > a
  · rw [if_pos hda, Nat.max_eq_right (Nat.le_of_lt hda)]
  · rw [if_neg hda, Nat.max_eq_left (Nat.le_of_not_lt hda)]

theorem parsedDates_cons_skip {parse : String → Option Nat} {m : Msg}
    (h : parse m.date = none) (ms : List Msg) :
    parsedDates parse (m :: ms) = parsedDates parse ms := by
  simp [parsedDates, List.filterMap_cons, h]

theorem parsedDates_cons_hit {parse : String → Option Nat} {m : Msg} {d : Nat}
    (h : parse m.date = some d) (ms : List Msg) :
    parsedDates parse (m :: ms) = d :: parsedDates parse ms := by
  simp [parsedDates, List.filterMap_cons, h]

theorem foldl_latestFold_some (parse : String → Option Nat) :
    ∀ (msgs : List Msg) (a : Nat),
      msgs.foldl (latestFold parse) (some a)
        = some ((parsedDates parse msgs).foldl max a) := by
  intro msgs
  induction msgs with
  | nil => intro a; rfl
  | cons m ms ih =>
    intro a
    rw [List.foldl_cons]
    cases h : parse m.date with
    | none => rw [latestFold_skip h, parsedDates_cons_skip h, ih a]
    | some d =>
      rw [latestFold_some h, parsedDates_cons_hit h, List.foldl_cons, ih (max a d)]

theorem foldl_latestFold_none (parse : String → Option Nat) :
    ∀ msgs : List Msg,
      msgs.foldl (latestFold parse) none
        = match parsedDates parse msgs with
          | [] => none
          | d :: ds => some (ds.foldl max d) := by
  intro msgs
  induction msgs with
  | nil => rfl
  | cons m ms ih =>
    rw [List.foldl_cons]
    cases h : parse m.date with
    | none => rw [latestFold_skip h, parsedDates_cons_skip h, ih]
    | some d =>
      rw [latestFold_none h, parsedDates_cons_hit h, foldl_latestFold_some parse ms d]

/-- The value computed by `_latest_date`: the maximum of the parseable dates,
with the `datetime.min` stand-in `0` when none parse.  Unparseable items are
simply absent from `parsedDates`, so they cannot influence the result. -/
theorem latest_date_eq (parse : String → Option Nat) (msgs : List Msg) :
    _latest_date parse msgs = (parsedDates parse msgs).foldl max 0 := by
  unfold _latest_date
  rw [foldl_latestFold_none]
  cases h : parsedDates parse msgs with
  | nil => rfl
  | cons d ds => simp [Nat.zero_max]

theorem le_foldl_max : ∀ (ds : List Nat) (a : Nat), a ≤ ds.foldl max a := by
  intro ds
  induction ds with
  | nil => intro a; exact Nat.le_refl a
  | cons d ds ih =>
    intro a
    calc a ≤ max a d := Nat.le_max_left a d
    _ ≤ ds.foldl max (max a d) := ih (max a d)

theorem foldl_max_pos {ds : List Nat} (hne : ds ≠ [])
    (hpos : ∀ d ∈ ds, 0 < d) : 0 < ds.foldl max 0 := by
  cases ds with
  | nil => exact absurd rfl hne
  | cons d ds =>
    have h1 : 0 < d := hpos d (List.mem_cons_self d ds)
    calc 0 < d := h1
    _ = max 0 d := (Nat.zero_max d).symm
    _ ≤ ds.foldl max (max 0 d) := le_foldl_max ds (max 0 d)
    _ = (d :: ds).foldl max 0 := by simp [Nat.zero_max]

/-! ## Sortedness of the stable insertion sort -/

theorem pyInsert_pairwise {R : α → α → Prop} {le : α → α → Bool}
    (hle : ∀ x y, le x y = true → R x y)
    (htot : ∀ x y, le x y = false → R y x)
    (htrans : ∀ x y z, R x y → R y z → R x z)
    (x : α) : ∀ l : List α, List.Pairwise R l → List.Pairwise R (pyInsert le x l) := by
  intro l
  induction l with
  | nil => intro _; simp [pyInsert]
  | cons y ys ih =>
    intro hl
    obtain ⟨hy, hys⟩ := List.pairwise_cons.mp hl
    simp only [pyInsert]
    by_cases h : le x y
    · rw [if_pos h]
      refine List.pairwise_cons.mpr ⟨?_, hl⟩
      intro z hz
      rcases List.mem_cons.mp hz with rfl | hz
      · exact hle x z h
      · exact htrans x y z (hle x y h) (hy z hz)
    · rw [if_neg h]
      refine List.pairwise_cons.mpr ⟨?_, ih hys⟩
      intro z hz
      rcases mem_pyInsert hz with rfl | hz
      · exact htot z y (Bool.of_not_eq_true h)
      · exact hy z hz

theorem pySorted_pairwise {R : α → α → Prop} {le : α → α → Bool}
    (hle : ∀ x y, le x y = true → R x y)
    (htot : ∀ x y, le x y = false → R y x)
    (htrans : ∀ x y z, R x y → R y z → R x z) :
    ∀ l : List α, List.Pairwise R (pySorted le l) := by
  intro l
  induction l with
  | nil => exact List.Pairwise.nil
  | cons x xs ih => exact pyInsert_pairwise hle htot htrans x _ ih

/-! ## Facts about the batcher -/

theorem chunksPos_nil (k : Nat) : chunksPos k ([] : List α) = [] := rfl

theorem chunksFuel_irrel (k : Nat) :
    ∀ (n m : Nat) (l : List α), l.length ≤ n → l.length ≤ m →
      chunksFuel k n l = chunksFuel k m l := by
  intro n
  induction n with
  | zero =>
    intro m l h1 h2
    rw [List.length_eq_zero.mp (Nat.le_zero.mp h1)]
    cases m <;> rfl
  | succ n ih =>
    intro m l h1 h2
    cases l with
    | nil => cases m <;> rfl
    | cons x xs =>
      cases m with
      | zero => simp at h2
      | succ m =>
        show (x :: xs.take k) :: chunksFuel k n (xs.drop k)
          = (x :: xs.take k) :: chunksFuel k m (xs.drop k)
        have hd : (xs.drop k).length ≤ xs.length := by
          rw [List.length_drop]
          omega
        simp only [List.length_cons] at h1 h2
        rw [ih m (xs.drop k) (Nat.le_trans hd (by omega)) (Nat.le_trans hd (by omega))]

theorem chunksPos_cons (k : Nat) (x : α) (xs : List α) :
    chunksPos k (x :: xs) = (x :: xs.take k) :: chunksPos k (xs.drop k) := by
  show chunksFuel k (x :: xs).length (x :: xs) = _
  rw [List.length_cons]
  show (x :: xs.take k) :: chunksFuel k xs.length (xs.drop k) = _
  rw [chunksFuel_irrel k xs.length (xs.drop k).length (xs.drop k)
    (by rw [List.length_drop]; omega) (Nat.le_refl _)]
  rfl

theorem chunksPos_flatten_aux (k : Nat) :
    ∀ (n : Nat) (l : List α), l.length ≤ n → (chunksPos k l).flatten = l := by
  intro n
  induction n with
  | zero =>
    intro l hl
    rw [List.length_eq_zero.mp (Nat.le_zero.mp hl), chunksPos_nil]
    rfl
  | succ n ih =>
    intro l hl
    cases l with
    | nil => rw [chunksPos_nil]; rfl
    | cons x xs =>
      rw [chunksPos_cons, List.flatten_cons]
      have hlen : (xs.drop k).length ≤ n := by
        rw [List.length_drop]
        simp only [List.length_cons] at hl
        omega
      rw [ih (xs.drop k) hlen, List.cons_append, List.take_append_drop]

theorem chunksPos_flatten (k : Nat) (l : List α) : (chunksPos k l).flatten = l :=
  chunksPos_flatten_aux k l.length l (Nat.le_refl _)

theorem chunksPos_mem_aux (k : Nat) :
    ∀ (n : Nat) (l : List α), l.length ≤ n →
      ∀ b ∈ chunksPos k l, b ≠ [] ∧ b.length ≤ k + 1 := by
  intro n
  induction n with
  | zero =>
    intro l hl b hb
    rw [List.length_eq_zero.mp (Nat.le_zero.mp hl)] at hb
    simp [chunksPos, chunksFuel] at hb
  | succ n ih =>
    intro l hl b hb
    cases l with
    | nil => simp [chunksPos, chunksFuel] at hb
    | cons x xs =>
      rw [chunksPos_cons] at hb
      rcases List.mem_cons.mp hb with rfl | hb
      · refine ⟨List.cons_ne_nil x _, ?_⟩
        simp only [List.length_cons, List.length_take]
        omega
      · have hlen : (xs.drop k).length ≤ n := by
          rw [List.length_drop]
          simp only [List.length_cons] at hl
          omega
        exact ih (xs.drop k) hlen b hb

theorem chunksPos_ne_nil (k : Nat) (x : α) (xs : List α) :
    chunksPos k (x :: xs) ≠ [] := by
  rw [chunksPos_cons]
  exact List.cons_ne_nil _ _

theorem chunksPos_dropLast_aux (k : Nat) :
    ∀ (n : Nat) (l : List α), l.length ≤ n →
      ∀ b ∈ (chunksPos k l).dropLast, b.length = k + 1 := by
  intro n
  induction n with
  | zero =>
    intro l hl b hb
    rw [List.length_eq_zero.mp (Nat.le_zero.mp hl)] at hb
    simp [chunksPos, chunksFuel] at hb
  | succ n ih =>
    intro l hl b hb
    cases l with
    | nil => simp [chunksPos, chunksFuel] at hb
    | cons x xs =>
      rw [chunksPos_cons] at hb
      cases hrest : chunksPos k (xs.drop k) with
      | nil => rw [hrest] at hb; simp at hb
      | cons r rs =>
        rw [hrest, List.dropLast_cons₂, ← hrest] at hb
        have hdk : xs.drop k ≠ [] := by
          intro hnil
          rw [hnil] at hrest
          simp [chunksPos, chunksFuel] at hrest
        have hxs : k < xs.length := by
          by_contra hle
          exact hdk (List.drop_eq_nil_of_le (Nat.le_of_not_lt hle))
        rcases List.mem_cons.mp hb with rfl | hb
        · simp only [List.length_cons, List.length_take]
          omega
        · have hlen : (xs.drop k).length ≤ n := by
            rw [List.length_drop]
            simp only [List.length_cons] at hl
            omega
          exact ih (xs.drop k) hlen b hb

/-! ## Store-operation lemmas -/

theorem getD_set_self (l : List (List BatchResult)) (i : Nat) (a : List BatchResult)
    (h : i < l.length) : (l.set i a).getD i [] = a := by
  simp [List.getD, h]

theorem lookupTask_update {s : Store} {tid : String} {t : PyTask}
    (ht : lookupTask s tid = some t) (u : TaskUpdates) :
    lookupTask (update_task s tid u).2 tid = some (applyUpdates t u) := by
  unfold update_task
  rw [ht]
  unfold lookupTask at ht ⊢
  simp only [List.find?_map]
  have hfst : (fun p : String × PyTask => p.1 == tid) ∘
      (fun p : String × PyTask => if p.1 == tid then (p.1, applyUpdates p.2 u) else p)
      = fun p : String × PyTask => p.1 == tid := by
    funext p
    show ((if p.1 == tid then (p.1, applyUpdates p.2 u) else p).1 == tid) = (p.1 == tid)
    by_cases h : (p.1 == tid) = true
    · rw [if_pos h]
    · rw [if_neg h]
  rw [hfst]
  cases hf : s.tasks.find? (fun p => p.1 == tid) with
  | none => rw [hf] at ht; simp at ht
  | some p =>
    rw [hf] at ht
    have hkey := List.find?_some hf
    simp only [Option.map_some'] at ht ⊢
    rw [if_pos hkey]
    simp only [Option.some.injEq] at ht ⊢
    rw [ht]

theorem heap_update (s : Store) (tid : String) (u : TaskUpdates) :
    (update_task s tid u).2.heap = s.heap := by
  unfold update_task
  cases lookupTask s tid <;> rfl

theorem lookupTask_add (s : Store) (tid : String) (r : BatchResult) :
    lookupTask (add_result s tid r).2 tid = lookupTask s tid := by
  unfold add_result
  cases h : lookupTask s tid with
  | none => exact h
  | some t => exact h

theorem heap_add {s : Store} {tid : String} {t : PyTask}
    (ht : lookupTask s tid = some t) (r : BatchResult) :
    (add_result s tid r).2.heap
      = s.heap.set t.resultsRef (s.heap.getD t.resultsRef [] ++ [r]) := by
  unfold add_result
  rw [ht]

theorem resultsRef_applyUpdates (t : PyTask) (u : TaskUpdates) :
    (applyUpdates t u).resultsRef = t.resultsRef := rfl

/-! ## The batch loop against the store -/

theorem processBatch_spec (env : Env) (key tid : String) (total i : Nat)
    (batch : List Msg) (s : Store) (t : PyTask)
    (ht : lookupTask s tid = some t) :
    lookupTask (processBatch env key tid total i batch s).1 tid
      = some (match stageError env key i batch with
          | some _ => t
          | none => applyUpdates t ⟨none, some (progressStr i total), none⟩)
    ∧ (processBatch env key tid total i batch s).1.heap
        = s.heap.set t.resultsRef
            (s.heap.getD t.resultsRef [] ++ [batchOutcome env key total i batch])
    ∧ (processBatch env key tid total i batch s).2 = batchEvents env key i batch := by
  simp only [processBatch, stageError, batchOutcome, batchEvents]
  cases h1 : env.strip_call i (combine_emails batch) with
  | error e =>
    dsimp only
    refine ⟨?_, heap_add ht _, rfl⟩
    rw [lookupTask_add]
    exact ht
  | ok cleaned =>
    dsimp only
    cases h2 : format_user_prompt env.promptStore key cleaned with
    | error e =>
      dsimp only
      refine ⟨?_, heap_add ht _, rfl⟩
      rw [lookupTask_add]
      exact ht
    | ok user_prompt =>
      dsimp only
      cases h3 : env.analyze_call i user_prompt with
      | error e =>
        dsimp only
        refine ⟨?_, heap_add ht _, rfl⟩
        rw [lookupTask_add]
        exact ht
      | ok llm_response =>
        dsimp only
        have ht1 : lookupTask (add_result s tid
            (successResult i total batch llm_response
              (parse_markdown_to_json env.isValidJson env.groq_api_key
                (env.parse_backend i) llm_response))).2 tid = some t := by
          rw [lookupTask_add]
          exact ht
        refine ⟨lookupTask_update ht1 _, ?_, rfl⟩
        rw [heap_update, heap_add ht]

theorem processBatches_spec (env : Env) (key tid : String) (total : Nat) :
    ∀ (bs : List (List Msg)) (i : Nat) (s : Store) (t : PyTask),
      lookupTask s tid = some t → t.resultsRef < s.heap.length →
      ∃ t', lookupTask (processBatches env key tid total i bs s).1 tid = some t'
        ∧ t'.resultsRef = t.resultsRef
        ∧ t'.status = t.status
        ∧ t'.error = t.error
        ∧ (processBatches env key tid total i bs s).1.heap.length = s.heap.length
        ∧ (processBatches env key tid total i bs s).1.heap.getD t.resultsRef []
            = s.heap.getD t.resultsRef []
              ++ (List.enumFrom i bs).map (fun p => batchOutcome env key total p.1 p.2)
        ∧ (processBatches env key tid total i bs s).2
            = (List.enumFrom i bs).flatMap (fun p => batchEvents env key p.1 p.2) := by
  intro bs
  induction bs with
  | nil =>
    intro i s t ht hr
    refine ⟨t, ?_, rfl, rfl, rfl, ?_, ?_, ?_⟩ <;> simp [processBatches, ht]
  | cons b bs ih =>
    intro i s t ht hr
    obtain ⟨hlk, hheap, hev⟩ := processBatch_spec env key tid total i b s t ht
    set s1 := (processBatch env key tid total i b s).1 with hs1
    set t1 : PyTask := (match stageError env key i b with
        | some _ => t
        | none => applyUpdates t ⟨none, some (progressStr i total), none⟩) with ht1def
    have href1 : t1.resultsRef = t.resultsRef := by
      rw [ht1def]
      cases stageError env key i b <;> rfl
    have hstat1 : t1.status = t.status := by
      rw [ht1def]
      cases stageError env key i b <;> rfl
    have herr1 : t1.error = t.error := by
      rw [ht1def]
      cases stageError env key i b <;> rfl
    have hlen1 : s1.heap.length = s.heap.length := by
      rw [hheap, List.length_set]
    have hval1 : s1.heap.getD t.resultsRef []
        = s.heap.getD t.resultsRef [] ++ [batchOutcome env key total i b] := by
      rw [hheap]
      exact getD_set_self _ _ _ hr
    have hr1 : t1.resultsRef < s1.heap.length := by
      rw [href1, hlen1]
      exact hr
    obtain ⟨t', h1, h2, h3, h4, h5, h6, h7⟩ := ih (i + 1) s1 t1 hlk hr1
    refine ⟨t', ?_, ?_, ?_, ?_, ?_, ?_, ?_⟩
    · simpa [processBatches] using h1
    · rw [h2, href1]
    · rw [h3, hstat1]
    · rw [h4, herr1]
    · show (processBatches env key tid total i (b :: bs) s).1.heap.length = s.heap.length
      have : (processBatches env key tid total i (b :: bs) s).1
          = (processBatches env key tid total (i + 1) bs s1).1 := by
        simp [processBatches]
      rw [this, h5, hlen1]
    · have : (processBatches env key tid total i (b :: bs) s).1
          = (processBatches env key tid total (i + 1) bs s1).1 := by
        simp [processBatches]
      rw [this]
      rw [href1] at h6
      rw [h6, hval1, List.enumFrom_cons, List.map_cons, List.append_assoc]
      rfl
    · have : (processBatches env key tid total i (b :: bs) s).2
          = (processBatch env key tid total i b s).2
            ++ (processBatches env key tid total (i + 1) bs s1).2 := by
        simp [processBatches]
      rw [this, h7, hev, List.enumFrom_cons, List.flatMap_cons]

/-! ## Helper facts for the workflow claims -/

theorem parse_keeps_of_backend_error (v : String → Bool) (k : Option String)
    (e md : String) : parse_markdown_to_json v k (.error e) md = md := by
  unfold parse_markdown_to_json
  cases k <;> rfl

theorem batchOutcome_error (env : Env) (key : String) (total i : Nat)
    (b : List Msg) (e : String) (h : stageError env key i b = some e) :
    batchOutcome env key total i b = errorResult i total b e := by
  unfold stageError at h
  unfold batchOutcome
  cases h1 : env.strip_call i (combine_emails b) with
  | error e' =>
    rw [h1] at h
    dsimp only at h ⊢
    cases h
    rfl
  | ok cleaned =>
    rw [h1] at h
    dsimp only at h ⊢
    cases h2 : format_user_prompt env.promptStore key cleaned with
    | error e' =>
      rw [h2] at h
      dsimp only at h ⊢
      cases h
      rfl
    | ok user_prompt =>
      rw [h2] at h
      dsimp only at h ⊢
      cases h3 : env.analyze_call i user_prompt with
      | error e' =>
        rw [h3] at h
        dsimp only at h ⊢
        cases h
        rfl
      | ok llm_response =>
        rw [h3] at h
        simp at h

theorem processBatch_results (env : Env) (key tid : String) (total i : Nat)
    (batch : List Msg) (s : Store) (t : PyTask)
    (ht : lookupTask s tid = some t) (hr : t.resultsRef < s.heap.length) :
    taskResults (processBatch env key tid total i batch s).1 tid
      = some (s.heap.getD t.resultsRef [] ++ [batchOutcome env key total i batch]) := by
  obtain ⟨h1, h2, _⟩ := processBatch_spec env key tid total i batch s t ht
  unfold taskResults
  rw [h1, Option.map_some']
  have href : (match stageError env key i batch with
      | some _ => t
      | none => applyUpdates t ⟨none, some (progressStr i total), none⟩).resultsRef
      = t.resultsRef := by
    cases stageError env key i batch <;> rfl
  rw [href, h2, getD_set_self _ _ _ hr]

/-- The successful-run shape of `run_analysis_workflow`: with a non-empty
fetch, a valid batch size and a present prompt key, the run is the batch
loop followed by the completion update. -/
theorem run_workflow_eq (env : Env) (tid key : String) (bsz : Int) (s0 : Store)
    (emails : List Msg) (batches : List (List Msg)) (pd : PromptData)
    (hf : env.fetchResult = .ok emails) (hne : emails ≠ [])
    (hb : _create_batches emails bsz = .ok batches)
    (hp : get_prompt env.promptStore key = .ok pd) :
    run_analysis_workflow env tid key bsz s0
      = ((update_task (processBatches env key tid batches.length 1 batches s0).1 tid
            ⟨some "completed", some (progressStr batches.length batches.length), none⟩).2,
         [.fetchEmails, .promptLookup key]
           ++ (processBatches env key tid batches.length 1 batches s0).2) := by
  have hie : emails.isEmpty = false := by
    cases emails with
    | nil => exact absurd rfl hne
    | cons x xs => rfl
  unfold run_analysis_workflow
  rw [hf]
  dsimp only
  rw [hie]
  simp only [Bool.false_eq_true, if_false]
  rw [hb]
  dsimp only
  rw [hp]

/-- The missing-prompt-key shape of `run_analysis_workflow`: the fetch and
the batching have already happened when `get_prompt` raises; the task is
marked failed with the `KeyError` message, no batch loop runs. -/
theorem run_workflow_eq_badkey (env : Env) (tid key : String) (bsz : Int) (s0 : Store)
    (emails : List Msg) (batches : List (List Msg)) (e : String)
    (hf : env.fetchResult = .ok emails) (hne : emails ≠ [])
    (hb : _create_batches emails bsz = .ok batches)
    (hp : get_prompt env.promptStore key = .error e) :
    run_analysis_workflow env tid key bsz s0
      = ((update_task s0 tid ⟨some "failed", none, some e⟩).2,
         [.fetchEmails, .promptLookup key]) := by
  have hie : emails.isEmpty = false := by
    cases emails with
    | nil => exact absurd rfl hne
    | cons x xs => rfl
  unfold run_analysis_workflow
  rw [hf]
  dsimp only
  rw [hie]
  simp only [Bool.false_eq_true, if_false]
  rw [hb]
  dsimp only
  rw [hp]

/-! ## Claim theorems -/

/-- C8: for every item sequence and every `batch_size > 0`, the batcher
succeeds and: concatenating the batches in order yields exactly the original
sequence; every batch except possibly the last has exactly `batch_size`
items; and every batch — the last included — is non-empty with at most
`batch_size` items. -/
theorem create_batches_repartition (items : List α) (batch_size : Int)
    (hpos : 0 < batch_size) :
    ∃ bs, _create_batches items batch_size = .ok bs
      ∧ bs.flatten = items
      ∧ (∀ b ∈ bs.dropLast, b.length = batch_size.toNat)
      ∧ (∀ b ∈ bs, b ≠ [] ∧ b.length ≤ batch_size.toNat) := by
  have h0 : ¬ batch_size = 0 := by omega
  have hneg : ¬ batch_size < 0 := by omega
  have htn : 1 ≤ batch_size.toNat := by omega
  refine ⟨chunksPos (batch_size.toNat - 1) items, ?_, chunksPos_flatten _ _, ?_, ?_⟩
  · unfold _create_batches
    rw [if_neg h0, if_neg hneg]
  · intro b hb
    have := chunksPos_dropLast_aux (batch_size.toNat - 1) items.length items
      (Nat.le_refl _) b hb
    omega
  · intro b hb
    obtain ⟨hne, hlen⟩ := chunksPos_mem_aux (batch_size.toNat - 1) items.length items
      (Nat.le_refl _) b hb
    exact ⟨hne, by omega⟩

theorem create_batches_repartition_witness :
    (0 : Int) < 2
    ∧ ∃ bs, _create_batches [10, 20, 30] (2 : Int) = .ok bs
        ∧ bs.flatten = [10, 20, 30]
        ∧ (∀ b ∈ bs.dropLast, b.length = (2 : Int).toNat)
        ∧ (∀ b ∈ bs, b ≠ [] ∧ b.length ≤ (2 : Int).toNat) :=
  ⟨by decide, create_batches_repartition [10, 20, 30] 2 (by decide)⟩

/-- C9 counterexample: the claim says every `batch_size ≤ 0` fails fast, but
`range(0, 3, -1)` is empty, so `_create_batches` on a non-empty list with
`batch_size = -1` raises nothing and silently returns zero batches. -/
theorem create_batches_negative_is_silent :
    _create_batches [10, 20, 30] (-1 : Int) = Except.ok []
    ∧ (_create_batches [10, 20, 30] (-1 : Int)).isOk = true := by
  exact ⟨rfl, rfl⟩

/-- C9 amended: only `batch_size = 0` fails fast (the `ValueError` from
`range`); a negative `batch_size` does not raise and silently produces zero
batches. -/
theorem create_batches_nonpositive (items : List α) (batch_size : Int) :
    (batch_size = 0 →
      _create_batches items batch_size = .error "range() arg 3 must not be zero")
    ∧ (batch_size < 0 → _create_batches items batch_size = .ok []) := by
  constructor
  · intro h
    unfold _create_batches
    rw [if_pos h]
  · intro h
    unfold _create_batches
    rw [if_neg (by omega), if_pos h]

theorem create_batches_nonpositive_witness :
    ((0 : Int) = 0 → _create_batches [10] (0 : Int)
        = .error "range() arg 3 must not be zero")
    ∧ ((-1 : Int) < 0 → _create_batches [10] (-1 : Int) = .ok [])
    ∧ _create_batches [10] (0 : Int) = .error "range() arg 3 must not be zero"
    ∧ _create_batches [10] (-1 : Int) = .ok [] :=
  ⟨(create_batches_nonpositive [10] 0).1,
   (create_batches_nonpositive [10] (-1)).2,
   (create_batches_nonpositive [10] 0).1 rfl,
   (create_batches_nonpositive [10] (-1)).2 (by decide)⟩

/-- C7 (code bug witness): `get_task` returns a *shallow* copy, so the
caller-visible record shares the store-internal `results` list object.
Appending to the returned record's results list is visible in the store:
for the store holding freshly created task `"t"` (results `[]`), the caller
append makes the store's results `[c7res]` — the claim (and the code's own
comment "Return copy to prevent external modifications") requires it to stay
`[]`. -/
theorem get_task_shallow_copy_leak :
    taskResults store0 "t" = some []
    ∧ (get_task store0 "t").map
        (fun r => taskResults (appendViaRecord store0 r c7res) "t")
      = some (some [c7res])
    ∧ some (some [c7res]) ≠ some (some ([] : List BatchResult)) := by
  refine ⟨by decide, by decide, by decide⟩

/-- C10: stage 3 (`parse_markdown_to_json`) is total — every input yields a
string, never a raise — and the result is either a string that passes the
JSON validation or the input markdown unchanged; with `GROQ_API_KEY` unset
the input is returned unchanged whatever the backend would have answered
(the backend outcome is never consulted); and when the backend's output
fails JSON validation the input is returned unchanged as well. -/
theorem parse_markdown_degrade_policy (isValidJson : String → Bool)
    (key : Option String) (backend : Except String String) (md : String) :
    (parse_markdown_to_json isValidJson key backend md = md
      ∨ isValidJson (parse_markdown_to_json isValidJson key backend md) = true)
    ∧ (∀ b : Except String String, parse_markdown_to_json isValidJson none b md = md)
    ∧ (∀ k raw, isValidJson (_extract_json_from_text raw) = false →
        parse_markdown_to_json isValidJson (some k) (.ok raw) md = md)
    ∧ (∀ k e, parse_markdown_to_json isValidJson (some k) (.error e) md = md) := by
  refine ⟨?_, fun b => rfl, ?_, fun k e => rfl⟩
  · unfold parse_markdown_to_json
    cases key with
    | none => exact Or.inl rfl
    | some k =>
      cases backend with
      | error e => exact Or.inl rfl
      | ok content =>
        dsimp only
        by_cases h : isValidJson (_extract_json_from_text content)
        · rw [if_pos h]
          exact Or.inr h
        · rw [if_neg h]
          exact Or.inl rfl
  · intro k raw h
    unfold parse_markdown_to_json
    dsimp only
    rw [if_neg (by rw [h]; exact Bool.false_ne_true)]

theorem parse_markdown_degrade_policy_witness :
    ((fun _ : String => false) (_extract_json_from_text "no json here") = false)
    ∧ parse_markdown_to_json (fun _ => false) (some "gk") (.ok "no json here") "md" = "md"
    ∧ parse_markdown_to_json (fun _ => false) none (.error "down") "md" = "md"
    ∧ parse_markdown_to_json (fun _ => false) (some "gk") (.error "down") "md" = "md" :=
  ⟨rfl,
   (parse_markdown_degrade_policy (fun _ => false) (some "gk") (.ok "no json here")
     "md").2.2.1 "gk" "no json here" rfl,
   (parse_markdown_degrade_policy (fun _ => false) none (.error "down") "md").2.1
     (.error "down"),
   (parse_markdown_degrade_policy (fun _ => false) (some "gk") (.error "down")
     "md").2.2.2 "gk" "down"⟩

/-- C1: for every task present in the store and every run whose fetch yields
a non-empty message list, whose batching succeeds and whose prompt key
resolves — under arbitrary per-batch stage outcomes — the run ends with
status `"completed"` (never `"failed"` because of a stage raise); exactly
one `BatchResult` is appended per batch for *every* batch `1..N` (a stage
raise at batch `i` does not stop batches `i+1..N`); and a batch whose stage
raised `e` contributes the error-shaped record carrying `e`. -/
theorem workflow_failure_isolation (env : Env) (tid key : String) (bsz : Int)
    (s0 : Store) (t0 : PyTask) (emails : List Msg) (batches : List (List Msg))
    (pd : PromptData)
    (ht : lookupTask s0 tid = some t0) (hr : t0.resultsRef < s0.heap.length)
    (hf : env.fetchResult = .ok emails) (hne : emails ≠ [])
    (hb : _create_batches emails bsz = .ok batches)
    (hp : get_prompt env.promptStore key = .ok pd) :
    statusOf (run_analysis_workflow env tid key bsz s0).1 tid = some "completed"
    ∧ taskResults (run_analysis_workflow env tid key bsz s0).1 tid
        = some (s0.heap.getD t0.resultsRef []
            ++ (List.enumFrom 1 batches).map
              (fun p => batchOutcome env key batches.length p.1 p.2))
    ∧ (∀ i b e, stageError env key i b = some e →
        batchOutcome env key batches.length i b = errorResult i batches.length b e) := by
  rw [run_workflow_eq env tid key bsz s0 emails batches pd hf hne hb hp]
  obtain ⟨t', h1, h2, h3, h4, h5, h6, h7⟩ :=
    processBatches_spec env key tid batches.length batches 1 s0 t0 ht hr
  have hlk := lookupTask_update h1
    ⟨some "completed", some (progressStr batches.length batches.length), none⟩
  refine ⟨?_, ?_, fun i b e he => batchOutcome_error env key batches.length i b e he⟩
  · unfold statusOf
    rw [hlk, Option.map_some']
    rfl
  · unfold taskResults
    rw [hlk, Option.map_some', heap_update, resultsRef_applyUpdates, h2, h6]

theorem workflow_failure_isolation_witness :
    lookupTask store0 "t" = some ⟨"t", "f5bot", 2, 1, "processing", "0/0", 0, none⟩
    ∧ (⟨"t", "f5bot", 2, 1, "processing", "0/0", 0, none⟩ : PyTask).resultsRef
        < store0.heap.length
    ∧ envC1.fetchResult = Except.ok [msgA1, msgB1]
    ∧ [msgA1, msgB1] ≠ ([] : List Msg)
    ∧ _create_batches [msgA1, msgB1] (1 : Int) = Except.ok [[msgA1], [msgB1]]
    ∧ get_prompt envC1.promptStore "k"
        = Except.ok ⟨"sys", "analyze: \x7bemail_content\x7d"⟩
    ∧ statusOf (run_analysis_workflow envC1 "t" "k" 1 store0).1 "t" = some "completed" :=
  ⟨by decide, by decide, rfl, by decide, rfl, rfl,
   (workflow_failure_isolation envC1 "t" "k" 1 store0
     ⟨"t", "f5bot", 2, 1, "processing", "0/0", 0, none⟩ [msgA1, msgB1]
     [[msgA1], [msgB1]] ⟨"sys", "analyze: \x7bemail_content\x7d"⟩
     (by decide) (by decide) rfl (by decide) rfl rfl).1⟩

/-- C4 counterexample: the claim says progress is updated to
`"<batch_num>/<total_batches>"` after *every* batch, success or failure,
before the next batch begins.  With two batches where batch 1 raises at
stage 2, the loop-state trace (`batchStates`; its `k`-th entry is the state
in which batch `k + 2` begins) shows progress still at the initial `"0/0"`,
not `"1/2"`, when batch 2 begins: the `except` branch never touches
progress. -/
theorem progress_skipped_on_failed_batch :
    stageError envC4 "k" 1 [msgA1] = some "stage2 boom"
    ∧ (batchStates envC4 "k" "t" 2 1 [[msgA1], [msgB1]] store0).map
        (fun s => progressOf s "t") = [some "0/0", some "2/2"]
    ∧ some "0/0" ≠ some "1/2" := by
  refine ⟨by decide, by decide, by decide⟩

/-- C4 amended: after each *successful* batch the loop updates the task's
progress to `"<batch_num>/<total_batches>"` before the next batch begins;
after a *failed* batch the error handler appends the error record but leaves
progress unchanged (the final `"<total>/<total>"` is only written with the
completion update after the loop). -/
theorem progress_update_policy (env : Env) (key tid : String) (total i : Nat)
    (batch : List Msg) (s : Store) (t : PyTask) (ht : lookupTask s tid = some t) :
    (stageError env key i batch = none →
      progressOf (processBatch env key tid total i batch s).1 tid
        = some (progressStr i total))
    ∧ (∀ e, stageError env key i batch = some e →
      progressOf (processBatch env key tid total i batch s).1 tid
        = progressOf s tid) := by
  obtain ⟨h1, _, _⟩ := processBatch_spec env key tid total i batch s t ht
  constructor
  · intro hnone
    rw [hnone] at h1
    dsimp only at h1
    unfold progressOf
    rw [h1, Option.map_some']
    rfl
  · intro e he
    rw [he] at h1
    dsimp only at h1
    unfold progressOf
    rw [h1, Option.map_some', ht, Option.map_some']

theorem progress_update_policy_witness :
    lookupTask store0 "t" = some ⟨"t", "f5bot", 2, 1, "processing", "0/0", 0, none⟩
    ∧ stageError envC4 "k" 2 [msgB1] = none
    ∧ progressOf (processBatch envC4 "k" "t" 2 2 [msgB1] store0).1 "t"
        = some (progressStr 2 2)
    ∧ stageError envC4 "k" 1 [msgA1] = some "stage2 boom"
    ∧ progressOf (processBatch envC4 "k" "t" 2 1 [msgA1] store0).1 "t"
        = progressOf store0 "t" :=
  ⟨by decide, by decide,
   (progress_update_policy envC4 "k" "t" 2 2 [msgB1] store0
     ⟨"t", "f5bot", 2, 1, "processing", "0/0", 0, none⟩ (by decide)).1 (by decide),
   by decide,
   (progress_update_policy envC4 "k" "t" 2 1 [msgA1] store0
     ⟨"t", "f5bot", 2, 1, "processing", "0/0", 0, none⟩ (by decide)).2
     "stage2 boom" (by decide)⟩

/-- C5 counterexample: the claim says a missing prompt key is detected and
the task failed *before* any item fetch, i.e. the fetch is never invoked
when the key does not resolve.  With a prompt store lacking key `"k"`, the
run's call trace is `[fetchEmails, promptLookup "k"]`: the fetch happened,
and only afterwards did the lookup fail (the task then fails). -/
theorem fetch_runs_before_prompt_lookup :
    (get_prompt envC5.promptStore "k").isOk = false
    ∧ (run_analysis_workflow envC5 "t" "k" 1 store0).2
        = [Ev.fetchEmails, Ev.promptLookup "k"]
    ∧ statusOf (run_analysis_workflow envC5 "t" "k" 1 store0).1 "t" = some "failed" := by
  refine ⟨by decide, by decide, by decide⟩

/-- C5 amended: a missing prompt key still fails the task — with the
`KeyError` message recorded and no batch processed (no stage calls, results
untouched) — but the detection happens *after* the item fetch and batching:
the fetch call is the first element of the trace. -/
theorem missing_prompt_key_fails_after_fetch (env : Env) (tid key : String)
    (bsz : Int) (s0 : Store) (t0 : PyTask) (emails : List Msg)
    (batches : List (List Msg)) (e : String)
    (ht : lookupTask s0 tid = some t0)
    (hf : env.fetchResult = .ok emails) (hne : emails ≠ [])
    (hb : _create_batches emails bsz = .ok batches)
    (hp : get_prompt env.promptStore key = .error e) :
    statusOf (run_analysis_workflow env tid key bsz s0).1 tid = some "failed"
    ∧ errorOf (run_analysis_workflow env tid key bsz s0).1 tid = some (some e)
    ∧ taskResults (run_analysis_workflow env tid key bsz s0).1 tid = taskResults s0 tid
    ∧ (run_analysis_workflow env tid key bsz s0).2
        = [Ev.fetchEmails, Ev.promptLookup key] := by
  rw [run_workflow_eq_badkey env tid key bsz s0 emails batches e hf hne hb hp]
  have hlk := lookupTask_update ht ⟨some "failed", none, some e⟩
  refine ⟨?_, ?_, ?_, rfl⟩
  · unfold statusOf
    rw [hlk, Option.map_some']
    rfl
  · unfold errorOf
    rw [hlk, Option.map_some']
    rfl
  · unfold taskResults
    rw [hlk, Option.map_some', heap_update, resultsRef_applyUpdates, ht, Option.map_some']

theorem missing_prompt_key_fails_after_fetch_witness :
    lookupTask store0 "t" = some ⟨"t", "f5bot", 2, 1, "processing", "0/0", 0, none⟩
    ∧ envC5.fetchResult = Except.ok [msgA1]
    ∧ [msgA1] ≠ ([] : List Msg)
    ∧ _create_batches [msgA1] (1 : Int) = Except.ok [[msgA1]]
    ∧ get_prompt envC5.promptStore "k"
        = Except.error ("Prompt key \x27k\x27 not found. Available: other")
    ∧ statusOf (run_analysis_workflow envC5 "t" "k" 1 store0).1 "t" = some "failed"
    ∧ (run_analysis_workflow envC5 "t" "k" 1 store0).2
        = [Ev.fetchEmails, Ev.promptLookup "k"] :=
  ⟨by decide, rfl, by decide, rfl, rfl,
   (missing_prompt_key_fails_after_fetch envC5 "t" "k" 1 store0
     ⟨"t", "f5bot", 2, 1, "processing", "0/0", 0, none⟩ [msgA1] [[msgA1]]
     ("Prompt key \x27k\x27 not found. Available: other")
     (by decide) rfl (by decide) rfl rfl).1,
   (missing_prompt_key_fails_after_fetch envC5 "t" "k" 1 store0
     ⟨"t", "f5bot", 2, 1, "processing", "0/0", 0, none⟩ [msgA1] [[msgA1]]
     ("Prompt key \x27k\x27 not found. Available: other")
     (by decide) rfl (by decide) rfl rfl).2.2.2⟩

/-- C6 counterexample: the claim says a stage 1 (de-metadata) failure makes
the batch fail.  In the code `strip_metadata_with_llm` (email_service.py
lines 488-504) catches its LLM failure and returns the original text, so the
loop-observed stage-1 outcome is `.ok` of the uncleaned text and the batch
proceeds.  Concretely: with the inner stage-1 LLM failing (`stage1Down`) and
stage 2 succeeding, the appended record is the *success* shape built from
the analysis of the uncleaned text — not the error record carrying
`"llm down"` that the claim demands — and stages 2 and 3 still run. -/
theorem strip_llm_failure_not_batch_fatal :
    stage1Down 1 = .error "llm down"
    ∧ envC6fix.strip_call 1 (combine_emails [msgA1]) = .ok (combine_emails [msgA1])
    ∧ taskResults (processBatch envC6fix "k" "t" 1 1 [msgA1] store0).1 "t"
        = some [successResult 1 1 [msgA1] "md output" "md output"]
    ∧ taskResults (processBatch envC6fix "k" "t" 1 1 [msgA1] store0).1 "t"
        ≠ some [errorResult 1 1 [msgA1] "llm down"]
    ∧ (processBatch envC6fix "k" "t" 1 1 [msgA1] store0).2
        = [Ev.stage1 1, Ev.stage2 1, Ev.stage3 1] := by
  refine ⟨rfl, rfl, by decide, by decide, by decide⟩

/-- C6 amended: a stage 1 (de-metadata) failure never raises into the batch
loop — `strip_metadata_with_llm` catches it and returns the original text,
so the stage-1 call always completes (`.ok`), and with stage 2 succeeding
the batch is recorded as a success built from the *uncleaned* text; if the
stage 2 (analyze) call raises, that batch is recorded as failed (its
`BatchResult` carries the error and the remaining stage is skipped); if the
stage 3 (structure) backend call fails, the batch still succeeds with the
stage 2 raw output kept in place of the structured form. -/
theorem stage_fatality_policy (env : Env) (key tid : String) (total i : Nat)
    (batch : List Msg) (s : Store) (t : PyTask)
    (stage1LLM : Nat → Except String String)
    (ht : lookupTask s tid = some t) (hr : t.resultsRef < s.heap.length)
    (hstrip : env.strip_call = realStripCall stage1LLM) :
    (∀ text, ∃ cleaned, env.strip_call i text = .ok cleaned)
    ∧ (∀ e text, stage1LLM i = .error e → env.strip_call i text = .ok text)
    ∧ (∀ e user_prompt llm_response, stage1LLM i = .error e →
        format_user_prompt env.promptStore key (combine_emails batch) = .ok user_prompt →
        env.analyze_call i user_prompt = .ok llm_response →
      taskResults (processBatch env key tid total i batch s).1 tid
        = some (s.heap.getD t.resultsRef []
            ++ [successResult i total batch llm_response
                (parse_markdown_to_json env.isValidJson env.groq_api_key
                  (env.parse_backend i) llm_response)])
      ∧ (processBatch env key tid total i batch s).2
          = [.stage1 i, .stage2 i, .stage3 i])
    ∧ (∀ cleaned user_prompt e,
        env.strip_call i (combine_emails batch) = .ok cleaned →
        format_user_prompt env.promptStore key cleaned = .ok user_prompt →
        env.analyze_call i user_prompt = .error e →
      taskResults (processBatch env key tid total i batch s).1 tid
        = some (s.heap.getD t.resultsRef [] ++ [errorResult i total batch e])
      ∧ (processBatch env key tid total i batch s).2 = [.stage1 i, .stage2 i])
    ∧ (∀ cleaned user_prompt llm_response e,
        env.strip_call i (combine_emails batch) = .ok cleaned →
        format_user_prompt env.promptStore key cleaned = .ok user_prompt →
        env.analyze_call i user_prompt = .ok llm_response →
        env.parse_backend i = .error e →
      taskResults (processBatch env key tid total i batch s).1 tid
        = some (s.heap.getD t.resultsRef []
            ++ [successResult i total batch llm_response llm_response])
      ∧ (processBatch env key tid total i batch s).2
          = [.stage1 i, .stage2 i, .stage3 i]) := by
  have hres := processBatch_results env key tid total i batch s t ht hr
  have hev := (processBatch_spec env key tid total i batch s t ht).2.2
  have hok : ∀ e text, stage1LLM i = .error e → env.strip_call i text = .ok text := by
    intro e text he
    rw [hstrip]
    unfold realStripCall
    rw [he]
    rfl
  refine ⟨?_, hok, ?_, ?_, ?_⟩
  · intro text
    rw [hstrip]
    exact ⟨strip_metadata_with_llm (stage1LLM i) text, rfl⟩
  · intro e user_prompt llm_response he h2 h3
    have h1 : env.strip_call i (combine_emails batch) = .ok (combine_emails batch) :=
      hok e (combine_emails batch) he
    have hout : batchOutcome env key total i batch
        = successResult i total batch llm_response
            (parse_markdown_to_json env.isValidJson env.groq_api_key
              (env.parse_backend i) llm_response) := by
      unfold batchOutcome
      rw [h1]
      dsimp only
      rw [h2]
      dsimp only
      rw [h3]
    have hbe : batchEvents env key i batch = [.stage1 i, .stage2 i, .stage3 i] := by
      unfold batchEvents
      rw [h1]
      dsimp only
      rw [h2]
      dsimp only
      rw [h3]
    rw [hout] at hres
    rw [hbe] at hev
    exact ⟨hres, hev⟩
  · intro cleaned user_prompt e h1 h2 h3
    have hout : batchOutcome env key total i batch = errorResult i total batch e := by
      unfold batchOutcome
      rw [h1]
      dsimp only
      rw [h2]
      dsimp only
      rw [h3]
    have hbe : batchEvents env key i batch = [.stage1 i, .stage2 i] := by
      unfold batchEvents
      rw [h1]
      dsimp only
      rw [h2]
      dsimp only
      rw [h3]
    rw [hout] at hres
    rw [hbe] at hev
    exact ⟨hres, hev⟩
  · intro cleaned user_prompt llm_response e h1 h2 h3 h4
    have hout : batchOutcome env key total i batch
        = successResult i total batch llm_response llm_response := by
      unfold batchOutcome
      rw [h1]
      dsimp only
      rw [h2]
      dsimp only
      rw [h3]
      dsimp only
      rw [h4, parse_keeps_of_backend_error]
    have hbe : batchEvents env key i batch = [.stage1 i, .stage2 i, .stage3 i] := by
      unfold batchEvents
      rw [h1]
      dsimp only
      rw [h2]
      dsimp only
      rw [h3]
    rw [hout] at hres
    rw [hbe] at hev
    exact ⟨hres, hev⟩

theorem stage_fatality_policy_witness :
    stage1Down 1 = .error "llm down"
    ∧ taskResults (processBatch envC6fix "k" "t" 1 1 [msgA1] store0).1 "t"
        = some [successResult 1 1 [msgA1] "md output" "md output"]
    ∧ (processBatch envC6fix "k" "t" 1 1 [msgA1] store0).2
        = [Ev.stage1 1, Ev.stage2 1, Ev.stage3 1]
    ∧ taskResults (processBatch envC6b "k" "t" 3 2 [msgA2] store0).1 "t"
        = some [errorResult 2 3 [msgA2] "s2 err"]
    ∧ (processBatch envC6b "k" "t" 3 2 [msgA2] store0).2 = [Ev.stage1 2, Ev.stage2 2]
    ∧ taskResults (processBatch envC6b "k" "t" 3 3 [msgB1] store0).1 "t"
        = some [successResult 3 3 [msgB1] "md output" "md output"]
    ∧ (processBatch envC6b "k" "t" 3 3 [msgB1] store0).2
        = [Ev.stage1 3, Ev.stage2 3, Ev.stage3 3] :=
  ⟨rfl,
   ((stage_fatality_policy envC6fix "k" "t" 1 1 [msgA1] store0
      ⟨"t", "f5bot", 2, 1, "processing", "0/0", 0, none⟩ stage1Down
      (by decide) (by decide) rfl).2.2.1
      "llm down"
      ("analyze: \x7bemail_content\x7d".replace "\x7bemail_content\x7d"
        (combine_emails [msgA1]))
      "md output" rfl rfl rfl).1,
   ((stage_fatality_policy envC6fix "k" "t" 1 1 [msgA1] store0
      ⟨"t", "f5bot", 2, 1, "processing", "0/0", 0, none⟩ stage1Down
      (by decide) (by decide) rfl).2.2.1
      "llm down"
      ("analyze: \x7bemail_content\x7d".replace "\x7bemail_content\x7d"
        (combine_emails [msgA1]))
      "md output" rfl rfl rfl).2,
   ((stage_fatality_policy envC6b "k" "t" 3 2 [msgA2] store0
      ⟨"t", "f5bot", 2, 1, "processing", "0/0", 0, none⟩ stage1OK
      (by decide) (by decide) rfl).2.2.2.1
      "cleaned"
      ("analyze: \x7bemail_content\x7d".replace "\x7bemail_content\x7d" "cleaned")
      "s2 err" rfl rfl rfl).1,
   ((stage_fatality_policy envC6b "k" "t" 3 2 [msgA2] store0
      ⟨"t", "f5bot", 2, 1, "processing", "0/0", 0, none⟩ stage1OK
      (by decide) (by decide) rfl).2.2.2.1
      "cleaned"
      ("analyze: \x7bemail_content\x7d".replace "\x7bemail_content\x7d" "cleaned")
      "s2 err" rfl rfl rfl).2,
   ((stage_fatality_policy envC6b "k" "t" 3 3 [msgB1] store0
      ⟨"t", "f5bot", 2, 1, "processing", "0/0", 0, none⟩ stage1OK
      (by decide) (by decide) rfl).2.2.2.2
      "cleaned"
      ("analyze: \x7bemail_content\x7d".replace "\x7bemail_content\x7d" "cleaned")
      "md output" "s3 err" rfl rfl rfl rfl).1,
   ((stage_fatality_policy envC6b "k" "t" 3 3 [msgB1] store0
      ⟨"t", "f5bot", 2, 1, "processing", "0/0", 0, none⟩ stage1OK
      (by decide) (by decide) rfl).2.2.2.2
      "cleaned"
      ("analyze: \x7bemail_content\x7d".replace "\x7bemail_content\x7d" "cleaned")
      "md output" "s3 err" rfl rfl rfl rfl).2⟩

/-- C2: the reranker's output is exactly what the spec words describe:
group items by conversation id (first-appearance order), sort the
conversations by their most-recent parseable date — descending, ties broken
by the conversations' source-provided order — truncate to the requested
conversation count, and flatten with each retained conversation's items
ordered by `message_number` ascending (arrival order on ties).  The code's
Python `sorted` calls are stable sorts; the spec side sorts by the strict
key-with-index lexicographic order, and the two coincide. -/
theorem fetch_rerank_matches_spec (parse : String → Option Nat) (max_results : Nat)
    (msgs : List Msg) :
    fetch_rerank parse max_results msgs = rerank_spec parse max_results msgs := by
  unfold fetch_rerank rerank_spec
  simp only [sortedDescBy_eq_spec, sortedAscBy_eq_spec]

/-- C3: an item whose date string fails to parse is simply absent from the
conversation's parsed-date list, leaving the other items' dates intact, so
`_latest_date` is the maximum of the parseable dates; a conversation with
zero parseable dates gets the minimum instant `0` (the `datetime.min`
stand-in); and in the sorted conversation ranking no zero-parseable-date
conversation ever precedes one with a parseable date, provided parsed
instants are strictly positive (the real RFC 2822 parser cannot produce
`datetime.min`).  The embedded comparison is a total function, so it cannot
raise. -/
theorem latest_date_policy (parse : String → Option Nat)
    (hpos : ∀ s d, parse s = some d → 0 < d) (msgs : List Msg)
    (conv : List Msg) :
    _latest_date parse conv = (parsedDates parse conv).foldl max 0
    ∧ (parsedDates parse conv = [] → _latest_date parse conv = 0)
    ∧ List.Pairwise (fun a b : String × List Msg =>
        parsedDates parse b.2 ≠ [] → parsedDates parse a.2 ≠ [])
        (sortedDescBy (fun p => _latest_date parse p.2) (groupByThread msgs)) := by
  refine ⟨latest_date_eq parse conv, ?_, ?_⟩
  · intro h
    rw [latest_date_eq, h]
    rfl
  · have hsorted : List.Pairwise (fun a b : String × List Msg =>
        _latest_date parse b.2 ≤ _latest_date parse a.2)
        (sortedDescBy (fun p => _latest_date parse p.2) (groupByThread msgs)) := by
      apply pySorted_pairwise
      · intro x y h
        exact of_decide_eq_true h
      · intro x y h
        have hlt := of_decide_eq_false h
        dsimp only at hlt ⊢
        omega
      · intro x y z h1 h2
        dsimp only at h1 h2 ⊢
        omega
    refine hsorted.imp ?_
    intro a b hle hbne hae
    have hb1 : 0 < _latest_date parse b.2 := by
      rw [latest_date_eq]
      refine foldl_max_pos hbne ?_
      intro d hd
      obtain ⟨m, _, hm⟩ := List.mem_filterMap.mp hd
      exact hpos m.date d hm
    have ha0 : _latest_date parse a.2 = 0 := by
      rw [latest_date_eq, hae]
      rfl
    omega

theorem latest_date_policy_witness :
    (∀ s d, parsedate s = some d → 0 < d)
    ∧ (_latest_date parsedate [msgA1, msgC1]
          = (parsedDates parsedate [msgA1, msgC1]).foldl max 0
      ∧ (parsedDates parsedate [msgA1, msgC1] = []
          → _latest_date parsedate [msgA1, msgC1] = 0)
      ∧ List.Pairwise (fun a b : String × List Msg =>
          parsedDates parsedate b.2 ≠ [] → parsedDates parsedate a.2 ≠ [])
          (sortedDescBy (fun p => _latest_date parsedate p.2)
            (groupByThread [msgA1, msgC1, msgB1]))) := by
  have hpos : ∀ s d, parsedate s = some d → 0 < d := by
    intro s d h
    unfold parsedate at h
    cases hs : s.toNat? with
    | none =>
      rw [hs] at h
      exact absurd h (by simp)
    | some n =>
      rw [hs] at h
      simp only [Option.map_some', Option.some.injEq] at h
      omega
  exact ⟨hpos, latest_date_policy parsedate hpos [msgA1, msgC1, msgB1] [msgA1, msgC1]⟩
